import Mathlib

/-!
Verification of the build pipeline in `src/commands/build.ts` (Suwatte/CLI).

The development shallowly embeds the build command: `findSourceEntryPoints`,
`bundle`'s observable effect (one artifact file per discovered entry written
into the scratch directory), `generateList`, and the orchestrating `build`
with its try/catch/finally discipline.

External collaborators (SHA-256, `JSON.stringify`, the `@suwatte/emulator`
loader, `evaluateEnvironment`, `crypto.randomUUID`) are parameters of the
model (`Externals`, `BuildInput.loadResult`): theorems quantify over them.
Filesystem state is modelled by the two directories the command owns: the
scratch directory (`__temp__`) and the output directory.
-/

/-- Decimal digit character, as produced by JavaScript `Number.prototype.toString()`. -/
def digitCh : Nat → Char
  | 0 => '0' | 1 => '1' | 2 => '2' | 3 => '3' | 4 => '4'
  | 5 => '5' | 6 => '6' | 7 => '7' | 8 => '8' | 9 => '9' | _ => '*'

/-- Reversed decimal digit list of `n`; the first argument is recursion fuel
(`n` itself is always enough fuel since `n / 10` shrinks by at least 1). -/
def decDigitsRev : Nat → Nat → List Char
  | 0, _ => []
  | fuel+1, n => if n = 0 then [] else digitCh (n % 10) :: decDigitsRev fuel (n / 10)

/-- Model of JavaScript `timestamp.toString()` for a nonnegative integer:
its decimal digit string. -/
def natToDecimal (n : Nat) : String :=
  if n = 0 then "0" else String.mk (decDigitsRev n n).reverse

/-- Numeric value of a decimal digit character (decoder used only in proofs). -/
def chVal : Char → Nat
  | '0' => 0 | '1' => 1 | '2' => 2 | '3' => 3 | '4' => 4
  | '5' => 5 | '6' => 6 | '7' => 7 | '8' => 8 | '9' => 9 | _ => 0

/-- Decoder for a reversed decimal digit list (used only in proofs). -/
def decodeRev : List Char → Nat
  | [] => 0
  | c :: cs => chVal c + 10 * decodeRev cs

/-- Model of JavaScript `String.prototype.includes`: `hasLead needle hay`
says `needle` is a leading block of `hay`. -/
def hasLead : List Char → List Char → Bool
  | [], _ => true
  | _ :: _, [] => false
  | a :: as, b :: bs => a == b && hasLead as bs

/-- `hasSub needle hay` : `needle` occurs as a contiguous block of `hay`. -/
def hasSub (needle : List Char) : List Char → Bool
  | [] => hasLead needle []
  | c :: rest => hasLead needle (c :: rest) || hasSub needle rest

/-- `strIncludes hay needle` models `hay.includes(needle)` in JavaScript:
a plain substring test on the text. -/
def strIncludes (hay needle : String) : Bool :=
  hasSub needle.data hay.data

/-- The fixed marker substring tested by `findSourceEntryPoints`
(line 143: `content.includes('class Target')`). -/
def marker : String := "class Target"

/-- Normalized target metadata as produced by the emulator collaborator:
`runner.info`. In JavaScript the `name` field may be absent (`undefined`),
hence `Option`; remaining declared fields are kept abstractly as pairs. -/
structure TargetInfo where
  name : Option String
  rest : List (String × String)
deriving DecidableEq, Repr

/-- JavaScript string coercion of a possibly-undefined string value, as in
`targetObject.path + ".stt"`: `undefined` coerces to the text `undefined`. -/
def jsStr : Option String → String
  | some s => s
  | none => "undefined"

/-- External collaborators of the build command, kept abstract:
the SHA-256 hex digest, `JSON.stringify` on metadata, `evaluateEnvironment`,
and `crypto.randomUUID` (indexed by call number). -/
structure Externals where
  sha256hex : String → String
  stringify : TargetInfo → String
  evalEnv : TargetInfo → String
  uuid : Nat → String

/-- The integrity hash of one catalog entry (build.ts lines 179-181):
`createHash("sha256").update(JSON.stringify(runner.info) + timestamp.toString()).digest("hex")`. -/
def entryHash (E : Externals) (timestamp : Nat) (info : TargetInfo) : String :=
  E.sha256hex (E.stringify info ++ natToDecimal timestamp)

/-- One entry point selected by discovery: `{ in: fileName, out: crypto.randomUUID() }`. -/
structure EntryPoint where
  inPath : String
  outId : String
deriving DecidableEq, Repr

/-- The project resolution configuration, reduced to what the code consumes:
`parsedCommandLine.fileNames`. -/
structure TsConfig where
  fileNames : List String
deriving DecidableEq, Repr

/-- The filtering loop of `findSourceEntryPoints` (lines 141-150): each file's
text is read and tested for the marker substring; each qualifying file gets a
fresh id from the `k`-th `crypto.randomUUID()` call. -/
def selectEntries (uuid : Nat → String) (readFile : String → String) :
    Nat → List String → List EntryPoint
  | _, [] => []
  | k, f :: fs =>
    if strIncludes (readFile f) marker
    then { inPath := f, outId := uuid k } :: selectEntries uuid readFile (k+1) fs
    else selectEntries uuid readFile k fs

/-- Model of `findSourceEntryPoints` (lines 124-153): reading and parsing
`tsconfig.json` yields the resolved file set, or fails (`none`) when the
configuration cannot be parsed; file reads are modelled by the total map
`readFile`. -/
def findSourceEntryPoints (uuid : Nat → String) (tsconfig : Option TsConfig)
    (readFile : String → String) : Except String (List EntryPoint) :=
  match tsconfig with
  | none => .error "tsconfig.json could not be parsed"
  | some cfg => .ok (selectEntries uuid readFile 0 cfg.fileNames)

/-- One bundled artifact file in the scratch runners directory, together with
what `require(targetFile)` / `emulate(sttPackage.Target)` yields for it:
`none` models a load that throws. -/
structure Artifact where
  fileName : String
  loadResult : Option TargetInfo
deriving DecidableEq, Repr

/-- One catalog entry (lines 175-182): the spread metadata plus
`path = runner.info.name`, the environment fingerprint, and the hash. -/
structure CatalogEntry where
  info : TargetInfo
  path : Option String
  environment : String
  hash : String
deriving DecidableEq, Repr

/-- The manifest object (lines 198-201): `{ runners, listName }`. A `none`
element of `runners` models a JavaScript `undefined` slot from the skip path. -/
structure Catalog where
  runners : List (Option CatalogEntry)
  listName : String
deriving DecidableEq, Repr

/-- `fs.stat(targetFile)` at line 166 is not awaited: the bound value is a
Promise object, and every object is truthy in JavaScript, so the guard
`if (!targetExists) return` can never take the skip branch. -/
def promiseTruthy : Bool := true

/-- Per-artifact processing of `generateList` (lines 163-186): the dead
existence guard, loading through the emulator (a throw rejects this
artifact's promise), entry construction, and the `copyFile` destination
`targetObject.path + ".stt"`. Returns the catalog entry and copy target,
`ok none` on the (unreachable) skip branch, `error` on a load throw. -/
def processArtifact (E : Externals) (timestamp : Nat) (a : Artifact) :
    Except String (Option (CatalogEntry × String)) :=
  if !promiseTruthy then .ok none
  else
    match a.loadResult with
    | none => .error a.fileName
    | some info =>
      .ok (some
        ({ info := info
         , path := info.name
         , environment := E.evalEnv info
         , hash := entryHash E timestamp info },
         jsStr info.name ++ ".stt"))

/-- `await Promise.all`: the batch result is the list of fulfilled values,
or the first rejection. A single rejected element rejects the whole batch. -/
def promiseAll {α : Type} : List (Except String α) → Except String (List α)
  | [] => .ok []
  | .error e :: _ => .error e
  | .ok a :: rest => (promiseAll rest).map (a :: ·)

/-- Model of `generateList` (lines 156-205). `now` is the single
`Date.now()` sample taken at line 157; `arts` is the `readdir` listing of the
scratch runners directory with each file's load behavior; `pkgExists` models
whether `fs.stat(package.json)` fulfills (its rejection propagates);
`pkgListName` models `pkgJSON.stt?.listName`. Returns the manifest object and
the list of artifact copy destinations, or the first error. -/
def generateList (E : Externals) (now : Nat) (arts : List Artifact)
    (pkgExists : Bool) (pkgListName : Option String) :
    Except String (Catalog × List String) :=
  let timestamp := now
  match promiseAll (arts.map (fun a => processArtifact E timestamp a)) with
  | .error e => .error e
  | .ok results =>
    if pkgExists then
      .ok ({ runners := results.map (fun r => r.map Prod.fst)
           , listName := (pkgListName.getD "Runner List") },
           results.filterMap (fun r => r.map Prod.snd))
    else .error "ENOENT: package.json"

/-- Filesystem state owned by the build command: the scratch directory
(`__temp__`, holding the bundled artifact file names) and the output
directory (holding entry names relative to it). `none` means the directory
does not exist. -/
structure FSState where
  tempDir : Option (List String)
  outDir : Option (List String)
deriving DecidableEq, Repr

/-- Input of one `build` run: the ambient data every step consumes.
`tsconfig` is the parse result of the resolution configuration; `readFile`
the source texts; `bundleOk` whether `esbuild.build` fulfills; `loadResult`
what loading each bundled artifact yields; `now` the `Date.now()` sample;
the remaining fields model the CLI flag, the assets directory, the HTML
step's outcome and `package.json`. -/
structure BuildInput where
  tsconfig : Option TsConfig
  readFile : String → String
  bundleOk : Bool
  loadResult : String → Option TargetInfo
  noList : Bool
  assetsExist : Bool
  assetCopyOk : Bool
  htmlOk : Bool
  pkgExists : Bool
  pkgListName : Option String
  now : Nat

/-- Observable outcome of one `build` run: final filesystem state, process
exit code (`process.exit(-1)` on failure, 0 otherwise), the manifest written
to `runners.json` if any, and the `console.error` log. -/
structure BuildResult where
  fs : FSState
  exitCode : Int
  manifest : Option Catalog
  log : List String
deriving DecidableEq, Repr

/-- Model of `build` (lines 34-102), following the source line by line:
clear and recreate the scratch directory (45-46); inside the try block clear
and recreate the output directory (53-54), bundle (58; discovery then
esbuild, which writes one artifact per entry into the scratch runners
directory), return early under `noList` (61-63), generate the list (65),
delete the scratch directory (69), copy assets if present (72-76, a failure
escapes to the outer catch), generate HTML in an inner try/catch whose
failure is only logged (79-86); the outer catch (87-90) logs and marks the
run failed; the finally block (91-95) deletes the scratch directory when it
still exists; a failed run exits with `process.exit(-1)` (99-101).
On the `generateList` error path only the creation of the output runners
directory (line 159) is modelled; whether individual concurrent copies
landed before the rejection is timing-dependent and not modelled. -/
def build (E : Externals) (inp : BuildInput) (fs0 : FSState) : BuildResult :=
  let fs2 : FSState := { fs0 with tempDir := some [], outDir := some [] }
  match findSourceEntryPoints E.uuid inp.tsconfig inp.readFile with
  | .error _ =>
    { fs := { fs2 with tempDir := none }, exitCode := -1, manifest := none
    , log := ["Failed to build runners"] }
  | .ok entries =>
    if inp.bundleOk = false then
      { fs := { fs2 with tempDir := none }, exitCode := -1, manifest := none
      , log := ["Failed to build runners"] }
    else
      let artifactFiles := entries.map (fun e => e.outId)
      let fs3 : FSState := { fs2 with tempDir := some artifactFiles }
      if inp.noList then
        { fs := { fs3 with tempDir := none }, exitCode := 0, manifest := none
        , log := [] }
      else
        let arts := artifactFiles.map
          (fun f => { fileName := f, loadResult := inp.loadResult f : Artifact })
        match generateList E inp.now arts inp.pkgExists inp.pkgListName with
        | .error _ =>
          { fs := { fs3 with tempDir := none, outDir := some ["runners"] }
          , exitCode := -1, manifest := none, log := ["Failed to build runners"] }
        | .ok (cat, copies) =>
          let outFiles := "runners" :: copies.map (fun c => "runners/" ++ c)
            ++ ["runners.json"]
          let fs4 : FSState := { fs3 with tempDir := none, outDir := some outFiles }
          if inp.assetsExist then
            if inp.assetCopyOk then
              { fs := { fs4 with outDir := some (outFiles ++ ["assets"]) }
              , exitCode := 0, manifest := some cat
              , log := if inp.htmlOk then [] else ["Failed to prepare HTML"] }
            else
              { fs := fs4, exitCode := -1, manifest := some cat
              , log := ["Failed to build runners"] }
          else
            { fs := fs4, exitCode := 0, manifest := some cat
            , log := if inp.htmlOk then [] else ["Failed to prepare HTML"] }

/-! ### Concrete fixtures used by witnesses and counterexamples -/

/-- Concrete externals: identity digest, metadata serialized by its name
field, constant environment, decimal uuids. -/
def E0 : Externals :=
  { sha256hex := fun s => s
  , stringify := fun i => jsStr i.name
  , evalEnv := fun _ => "env"
  , uuid := fun k => natToDecimal k }

/-- Metadata with a name. -/
def infoA : TargetInfo := { name := some "A", rest := [] }

/-- Metadata whose `name` field is absent. -/
def infoNameless : TargetInfo := { name := none, rest := [] }

/-- An artifact that loads fine. -/
def artGood : Artifact := { fileName := "good.js", loadResult := some infoA }

/-- An artifact whose `require`/`emulate` throws. -/
def artBad : Artifact := { fileName := "bad.js", loadResult := none }

/-- An artifact that loads but whose metadata has no `name`. -/
def artNameless : Artifact := { fileName := "x.js", loadResult := some infoNameless }

/-- A project with one source file. -/
def cfgOne : TsConfig := { fileNames := ["t.ts"] }

/-- A project with two source files. -/
def cfgTwo : TsConfig := { fileNames := ["a.ts", "b.ts"] }

/-- Empty initial filesystem. -/
def fsEmpty : FSState := { tempDir := none, outDir := none }

/-- Initial filesystem whose output directory holds an unrelated stray file. -/
def fsStray : FSState := { tempDir := none, outDir := some ["stray.txt"] }

/-- A run in which everything succeeds (one source file, marker present,
loadable artifact, assets present and copyable, HTML fine). -/
def inpSuccess : BuildInput :=
  { tsconfig := some cfgOne
  , readFile := fun _ => "// class Target"
  , bundleOk := true
  , loadResult := fun _ => some infoA
  , noList := false
  , assetsExist := true
  , assetCopyOk := true
  , htmlOk := true
  , pkgExists := true
  , pkgListName := none
  , now := 7 }

/-- Same run but the asset copy throws. -/
def inpAssetFail : BuildInput := { inpSuccess with assetCopyOk := false }

/-- Same run but HTML generation throws. -/
def inpHtmlFail : BuildInput := { inpSuccess with htmlOk := false }

/-- Same run but `esbuild.build` rejects. -/
def inpBundleFail : BuildInput := { inpSuccess with bundleOk := false }

/-- Same run but invoked with the bundling-only flag. -/
def inpNoList : BuildInput := { inpSuccess with noList := true }

/-- Same run but `tsconfig.json` cannot be parsed. -/
def inpBadConfig : BuildInput := { inpSuccess with tsconfig := none }

/-- Two-file run in which the second bundled artifact fails to load. -/
def inpOneBadLoad : BuildInput :=
  { inpSuccess with
    tsconfig := some cfgTwo
  , loadResult := fun f => if f = "0" then some infoA else none }

/-- The catalog entry the successful concrete run produces. -/
def entryA : CatalogEntry :=
  { info := infoA, path := some "A", environment := "env", hash := "A7" }

/-- The manifest the successful concrete run writes. -/
def catOne : Catalog := { runners := [some entryA], listName := "Runner List" }

/-- The artifact batch `generateList` receives inside `build`: one bundled
file per discovered entry, named by its build id, with its load behavior. -/
def artsOf (E : Externals) (inp : BuildInput) (cfg : TsConfig) : List Artifact :=
  ((selectEntries E.uuid inp.readFile 0 cfg.fileNames).map (fun e => e.outId)).map
    (fun f => { fileName := f, loadResult := inp.loadResult f })

/-! ### Decimal rendering: round-trip and injectivity -/

theorem chVal_digitCh (d : Nat) (hd : d < 10) : chVal (digitCh d) = d := by
  interval_cases d <;> rfl

theorem decode_decDigitsRev : ∀ fuel n, n ≤ fuel → decodeRev (decDigitsRev fuel n) = n := by
  intro fuel
  induction fuel with
  | zero => intro n hn; interval_cases n; rfl
  | succ f ih =>
    intro n hn
    rw [decDigitsRev]
    by_cases h0 : n = 0
    · simp [h0, decodeRev]
    · rw [if_neg h0, decodeRev]
      have hdiv : n / 10 ≤ f := by
        have := Nat.div_lt_self (Nat.pos_of_ne_zero h0) (by decide : 1 < 10)
        omega
      rw [ih _ hdiv, chVal_digitCh _ (Nat.mod_lt _ (by decide))]
      omega

theorem natToDecimal_inj (a b : Nat) (h : natToDecimal a = natToDecimal b) : a = b := by
  unfold natToDecimal at h
  by_cases ha : a = 0 <;> by_cases hb : b = 0
  · omega
  · rw [if_pos ha, if_neg hb] at h
    have hd : (['0'] : List Char) = (decDigitsRev b b).reverse := congrArg String.data h
    have hdec : decodeRev (decDigitsRev b b) = b := decode_decDigitsRev b b le_rfl
    have hl : decDigitsRev b b = ['0'] := by
      have := congrArg List.reverse hd
      simpa using this.symm
    rw [hl] at hdec
    simp [decodeRev, chVal] at hdec
    omega
  · rw [if_neg ha, if_pos hb] at h
    have hd : (decDigitsRev a a).reverse = (['0'] : List Char) := congrArg String.data h
    have hdec : decodeRev (decDigitsRev a a) = a := decode_decDigitsRev a a le_rfl
    have hl : decDigitsRev a a = ['0'] := by
      have := congrArg List.reverse hd
      simpa using this
    rw [hl] at hdec
    simp [decodeRev, chVal] at hdec
    omega
  · rw [if_neg ha, if_neg hb] at h
    have hrev : (decDigitsRev a a).reverse = (decDigitsRev b b).reverse :=
      congrArg String.data h
    have hab : decDigitsRev a a = decDigitsRev b b := by
      have := congrArg List.reverse hrev
      simpa using this
    have h1 := decode_decDigitsRev a a le_rfl
    have h2 := decode_decDigitsRev b b le_rfl
    rw [hab] at h1
    omega

theorem strAppend_cancel (a b c : String) (h : a ++ b = a ++ c) : b = c := by
  have hd : (a ++ b).data = (a ++ c).data := by rw [h]
  rw [String.data_append, String.data_append] at hd
  exact String.ext (List.append_cancel_left hd)

/-- C6. For identical normalized metadata and two distinct build epochs, the
computed integrity hashes differ, under injectivity of the hash function:
the hash inputs (serialized metadata concatenated with the decimal epoch
string) differ whenever the epochs differ. -/
theorem hash_differs_across_epochs (E : Externals)
    (hinj : Function.Injective E.sha256hex) (m : TargetInfo) (t1 t2 : Nat)
    (hne : t1 ≠ t2) : entryHash E t1 m ≠ entryHash E t2 m := by
  intro h
  have h2 : E.stringify m ++ natToDecimal t1 = E.stringify m ++ natToDecimal t2 := hinj h
  exact hne (natToDecimal_inj _ _ (strAppend_cancel _ _ _ h2))

theorem hash_differs_across_epochs_witness :
    Function.Injective E0.sha256hex ∧ (0 : Nat) ≠ 1 ∧
      entryHash E0 0 infoA ≠ entryHash E0 1 infoA :=
  ⟨fun _ _ h => h, by decide,
    hash_differs_across_epochs E0 (fun _ _ h => h) infoA 0 1 (by decide)⟩

/-! ### Entry-point discovery -/

theorem selectEntries_mem_iff (uuid : Nat → String) (readFile : String → String) :
    ∀ (k : Nat) (l : List String) (f : String),
      (∃ e ∈ selectEntries uuid readFile k l, e.inPath = f) ↔
        (f ∈ l ∧ strIncludes (readFile f) marker = true) := by
  intro k l
  induction l generalizing k with
  | nil => intro f; simp [selectEntries]
  | cons g gs ih =>
    intro f
    rw [selectEntries]
    by_cases hg : strIncludes (readFile g) marker = true
    · rw [if_pos hg]
      constructor
      · rintro ⟨e, he, hef⟩
        rcases List.mem_cons.mp he with rfl | htail
        · exact ⟨hef ▸ List.mem_cons_self g gs, hef ▸ hg⟩
        · obtain ⟨h1, h2⟩ := (ih (k+1) f).mp ⟨e, htail, hef⟩
          exact ⟨List.mem_cons_of_mem g h1, h2⟩
      · rintro ⟨hf, hm⟩
        rcases List.mem_cons.mp hf with rfl | htail
        · exact ⟨{ inPath := f, outId := uuid k }, List.mem_cons_self _ _, rfl⟩
        · obtain ⟨e, he, hef⟩ := (ih (k+1) f).mpr ⟨htail, hm⟩
          exact ⟨e, List.mem_cons_of_mem _ he, hef⟩
    · rw [if_neg hg, ih k f]
      constructor
      · rintro ⟨h1, h2⟩
        exact ⟨List.mem_cons_of_mem g h1, h2⟩
      · rintro ⟨hf, hm⟩
        rcases List.mem_cons.mp hf with rfl | htail
        · exact absurd hm hg
        · exact ⟨htail, hm⟩

/-- C8. A source file qualifies as a buildable entry iff its full text
contains the fixed marker substring, by a plain substring test; in
particular a text carrying the marker only inside a comment, such as
`// class Target`, still qualifies. -/
theorem entry_selection_is_substring_test (uuid : Nat → String)
    (readFile : String → String) (cfg : TsConfig) :
    findSourceEntryPoints uuid (some cfg) readFile =
        .ok (selectEntries uuid readFile 0 cfg.fileNames) ∧
      (∀ f, (∃ e ∈ selectEntries uuid readFile 0 cfg.fileNames, e.inPath = f) ↔
        (f ∈ cfg.fileNames ∧ strIncludes (readFile f) marker = true)) ∧
      strIncludes "// class Target" marker = true :=
  ⟨rfl, fun f => selectEntries_mem_iff uuid readFile 0 cfg.fileNames f, by decide⟩

/-! ### Catalog building -/

theorem promiseAll_ok_mem {α : Type} (l : List (Except String α)) (rs : List α)
    (h : promiseAll l = .ok rs) : ∀ r ∈ rs, Except.ok r ∈ l := by
  induction l generalizing rs with
  | nil =>
    rw [promiseAll] at h
    cases h
    intro r hr
    cases hr
  | cons x rest ih =>
    match x with
    | .error e => rw [promiseAll] at h; cases h
    | .ok a =>
      rw [promiseAll] at h
      cases hrest : promiseAll rest with
      | error e => rw [hrest] at h; cases h
      | ok rs' =>
        rw [hrest] at h
        cases h
        intro r hr
        rcases List.mem_cons.mp hr with rfl | htail
        · exact List.mem_cons_self _ _
        · exact List.mem_cons_of_mem _ (ih rs' hrest r htail)

theorem processArtifact_ok_shape (E : Externals) (ts : Nat) (a : Artifact)
    (p : CatalogEntry × String) (h : processArtifact E ts a = .ok (some p)) :
    ∃ info, a.loadResult = some info ∧
      p.1 = { info := info, path := info.name, environment := E.evalEnv info
            , hash := entryHash E ts info } ∧
      p.2 = jsStr info.name ++ ".stt" := by
  rw [processArtifact] at h
  cases hl : a.loadResult with
  | none => rw [hl] at h; simp [promiseTruthy] at h
  | some info =>
    rw [hl] at h
    simp only [promiseTruthy, Bool.not_true, Bool.false_eq_true, if_false,
      Except.ok.injEq, Option.some.injEq] at h
    exact ⟨info, rfl, congrArg Prod.fst h.symm, congrArg Prod.snd h.symm⟩

theorem generateList_entry_hash (E : Externals) (now : Nat) (arts : List Artifact)
    (pe : Bool) (pl : Option String) (cat : Catalog) (copies : List String)
    (h : generateList E now arts pe pl = .ok (cat, copies)) :
    ∀ e : CatalogEntry, some e ∈ cat.runners → e.hash = entryHash E now e.info := by
  rw [generateList] at h
  cases hp : promiseAll (arts.map (fun a => processArtifact E now a)) with
  | error e => rw [hp] at h; cases h
  | ok results =>
    rw [hp] at h
    dsimp only at h
    by_cases hpe : pe = true
    · rw [if_pos hpe] at h
      intro e he
      have hcat : cat.runners = results.map (fun r => r.map Prod.fst) := by
        cases h
        rfl
      rw [hcat] at he
      obtain ⟨r, hr, hre⟩ := List.mem_map.mp he
      match r with
      | none => cases hre
      | some p =>
        have hp1 : p.1 = e := by
          simpa using hre
        have hmem : Except.ok (some p) ∈ arts.map (fun a => processArtifact E now a) :=
          promiseAll_ok_mem _ _ hp (some p) hr
        obtain ⟨a, _, hpa⟩ := List.mem_map.mp hmem
        obtain ⟨info, _, hshape, _⟩ := processArtifact_ok_shape E now a p hpa
        rw [← hp1, hshape]
    · rw [if_neg hpe] at h
      cases h

/-! ### Build orchestration -/

/-- C1. On every exit path of `build` — success, caught HTML-generation
failure, and fatal failure such as a bundling error — the scratch workspace
directory does not exist afterwards; a run that fails mid-bundle still
removes the workspace and exits non-zero. -/
theorem build_always_removes_scratch (E : Externals) (inp : BuildInput) (fs0 : FSState) :
    (build E inp fs0).fs.tempDir = none ∧
    (inp.bundleOk = false → (build E inp fs0).exitCode = -1) := by
  simp only [build]
  cases hf : findSourceEntryPoints E.uuid inp.tsconfig inp.readFile with
  | error msg => exact ⟨rfl, fun _ => rfl⟩
  | ok entries =>
    dsimp only
    by_cases hb : inp.bundleOk = false
    · rw [if_pos hb]
      exact ⟨rfl, fun _ => rfl⟩
    · rw [if_neg hb]
      refine ⟨?_, fun hcontra => absurd hcontra hb⟩
      by_cases hn : inp.noList = true
      · rw [if_pos hn]
      · rw [if_neg hn]
        cases hg : generateList E inp.now ((entries.map fun e => e.outId).map
            fun f => { fileName := f, loadResult := inp.loadResult f : Artifact })
            inp.pkgExists inp.pkgListName with
        | error msg => rfl
        | ok pair =>
          obtain ⟨cat, copies⟩ := pair
          dsimp only
          by_cases ha : inp.assetsExist = true
          · rw [if_pos ha]
            by_cases hc : inp.assetCopyOk = true
            · rw [if_pos hc]
            · rw [if_neg hc]
          · rw [if_neg ha]

theorem build_always_removes_scratch_witness :
    (build E0 inpBundleFail fsStray).fs.tempDir = none ∧
    (build E0 inpBundleFail fsStray).exitCode = -1 :=
  ⟨(build_always_removes_scratch E0 inpBundleFail fsStray).1,
   (build_always_removes_scratch E0 inpBundleFail fsStray).2 rfl⟩

/-- C3, amended. Entry-point discovery fails exactly when the resolution
configuration cannot be parsed, and such a failure aborts the run with a
non-zero exit and no manifest — but only after the scratch and output
directories have already been cleared and recreated, so output mutation has
occurred by the time discovery fails. -/
theorem discovery_fails_only_on_config_parse (E : Externals) (inp : BuildInput) (fs0 : FSState) :
    ((∃ msg, findSourceEntryPoints E.uuid inp.tsconfig inp.readFile = .error msg) ↔
      inp.tsconfig = none) ∧
    (inp.tsconfig = none →
      build E inp fs0 =
        { fs := { tempDir := none, outDir := some [] }, exitCode := -1
        , manifest := none, log := ["Failed to build runners"] }) := by
  constructor
  · constructor
    · rintro ⟨msg, hmsg⟩
      cases ht : inp.tsconfig with
      | none => rfl
      | some cfg => rw [ht] at hmsg; simp [findSourceEntryPoints] at hmsg
    · intro h
      exact ⟨"tsconfig.json could not be parsed", by rw [h]; rfl⟩
  · intro h
    simp only [build, findSourceEntryPoints, h]

theorem discovery_fails_only_on_config_parse_witness :
    inpBadConfig.tsconfig = none ∧
    build E0 inpBadConfig fsStray =
      { fs := { tempDir := none, outDir := some [] }, exitCode := -1
      , manifest := none, log := ["Failed to build runners"] } :=
  ⟨rfl, (discovery_fails_only_on_config_parse E0 inpBadConfig fsStray).2 rfl⟩

/-- C3, counterexample to the claim as stated: with an unparseable
configuration the run aborts, yet the output directory has been mutated —
its pre-existing stray file is gone and it has been recreated empty — even
though discovery failed, contradicting the claim that discovery failure
aborts before any output mutation has occurred. -/
theorem discovery_failure_after_output_mutation_cex :
    fsStray.outDir = some ["stray.txt"] ∧
    (build E0 inpBadConfig fsStray).exitCode = -1 ∧
    (build E0 inpBadConfig fsStray).fs.outDir = some [] :=
  ⟨rfl, rfl, rfl⟩

/-- C10. A bundling-only run (`noList` set) that encounters no error returns
before catalog generation; the finally block then deletes the scratch
directory holding every bundled artifact, so no bundled artifact exists
anywhere on disk, and the output directory has been cleared and is left
empty — no manifest, no runners, success exit. -/
theorem nolist_run_leaves_empty_output (E : Externals) (inp : BuildInput) (fs0 : FSState)
    (cfg : TsConfig) (h1 : inp.noList = true) (h2 : inp.tsconfig = some cfg)
    (h3 : inp.bundleOk = true) :
    build E inp fs0 =
      { fs := { tempDir := none, outDir := some [] }, exitCode := 0
      , manifest := none, log := [] } := by
  simp only [build, findSourceEntryPoints, h2]
  rw [if_neg (show ¬(inp.bundleOk = false) by rw [h3]; simp), if_pos h1]

theorem nolist_run_leaves_empty_output_witness :
    inpNoList.noList = true ∧
    build E0 inpNoList fsStray =
      { fs := { tempDir := none, outDir := some [] }, exitCode := 0
      , manifest := none, log := [] } :=
  ⟨rfl, nolist_run_leaves_empty_output E0 inpNoList fsStray cfgOne rfl rfl rfl⟩

theorem exit_neg_ne_zero {r : BuildResult} (h : r.exitCode = -1) : ¬ r.exitCode = 0 := by
  rw [h]
  decide

/-- C9. The outcome of `build` is independent of the initial filesystem
state — the output directory is recursively deleted and recreated before
anything is written, so no file from before the run survives — and after a
successful run the output directory contains only the current run's output:
the runners directory, copied artifacts under it, the manifest
`runners.json`, and at most an `assets` mirror. -/
theorem output_dir_clear_then_populate (E : Externals) (inp : BuildInput) (fs0 fs0' : FSState) :
    build E inp fs0 = build E inp fs0' ∧
    ((build E inp fs0).exitCode = 0 →
      ∃ l, (build E inp fs0).fs.outDir = some l ∧
        ∀ s ∈ l, s = "runners" ∨ s = "runners.json" ∨ s = "assets" ∨
          ∃ c, s = "runners/" ++ c) := by
  refine ⟨rfl, ?_⟩
  simp only [build]
  cases hf : findSourceEntryPoints E.uuid inp.tsconfig inp.readFile with
  | error msg => intro h0; exact absurd h0 (exit_neg_ne_zero rfl)
  | ok entries =>
    dsimp only
    by_cases hb : inp.bundleOk = false
    · rw [if_pos hb]; intro h0; exact absurd h0 (exit_neg_ne_zero rfl)
    · rw [if_neg hb]
      by_cases hn : inp.noList = true
      · rw [if_pos hn]
        intro _
        exact ⟨[], rfl, fun s hs => absurd hs (List.not_mem_nil s)⟩
      · rw [if_neg hn]
        cases hg : generateList E inp.now ((entries.map fun e => e.outId).map
            fun f => { fileName := f, loadResult := inp.loadResult f : Artifact })
            inp.pkgExists inp.pkgListName with
        | error msg => intro h0; exact absurd h0 (exit_neg_ne_zero rfl)
        | ok pair =>
          obtain ⟨cat, copies⟩ := pair
          dsimp only
          by_cases ha : inp.assetsExist = true
          · rw [if_pos ha]
            by_cases hc : inp.assetCopyOk = true
            · rw [if_pos hc]
              intro _
              refine ⟨_, rfl, ?_⟩
              intro s hs
              simp only [List.mem_cons, List.mem_append, List.mem_map,
                List.mem_singleton, List.not_mem_nil, or_false] at hs
              aesop
            · rw [if_neg hc]; intro h0; exact absurd h0 (exit_neg_ne_zero rfl)
          · rw [if_neg ha]
            intro _
            refine ⟨_, rfl, ?_⟩
            intro s hs
            simp only [List.mem_cons, List.mem_append, List.mem_map,
              List.mem_singleton, List.not_mem_nil, or_false] at hs
            aesop

theorem output_dir_clear_then_populate_witness :
    (build E0 inpSuccess fsStray).exitCode = 0 ∧
    (∃ l, (build E0 inpSuccess fsStray).fs.outDir = some l ∧
      ∀ s ∈ l, s = "runners" ∨ s = "runners.json" ∨ s = "assets" ∨
        ∃ c, s = "runners/" ++ c) :=
  ⟨rfl, (output_dir_clear_then_populate E0 inpSuccess fsStray fsEmpty).2 rfl⟩

/-- C5. Every entry of the manifest a run writes carries as integrity hash
the (hex) digest of the concatenation of the serialized normalized metadata
and the decimal string form of the single per-run epoch `inp.now` — the one
`Date.now()` sample taken at the start of `generateList`, used unchanged in
every hash computation of that run. -/
theorem manifest_hash_uses_single_epoch (E : Externals) (inp : BuildInput) (fs0 : FSState)
    (cat : Catalog) (h : (build E inp fs0).manifest = some cat) :
    ∀ e : CatalogEntry, some e ∈ cat.runners →
      e.hash = E.sha256hex (E.stringify e.info ++ natToDecimal inp.now) := by
  revert h
  simp only [build]
  cases hf : findSourceEntryPoints E.uuid inp.tsconfig inp.readFile with
  | error msg => intro h; exact Option.noConfusion h
  | ok entries =>
    dsimp only
    by_cases hb : inp.bundleOk = false
    · rw [if_pos hb]; intro h; exact Option.noConfusion h
    · rw [if_neg hb]
      by_cases hn : inp.noList = true
      · rw [if_pos hn]; intro h; exact Option.noConfusion h
      · rw [if_neg hn]
        cases hg : generateList E inp.now ((entries.map fun e => e.outId).map
            fun f => { fileName := f, loadResult := inp.loadResult f : Artifact })
            inp.pkgExists inp.pkgListName with
        | error msg => intro h; exact Option.noConfusion h
        | ok pair =>
          obtain ⟨cat', copies⟩ := pair
          dsimp only
          by_cases ha : inp.assetsExist = true
          · rw [if_pos ha]
            by_cases hc : inp.assetCopyOk = true
            · rw [if_pos hc]
              intro h
              have hcc : cat' = cat := Option.some.inj h
              subst hcc
              exact generateList_entry_hash E inp.now _ _ _ _ _ hg
            · rw [if_neg hc]
              intro h
              have hcc : cat' = cat := Option.some.inj h
              subst hcc
              exact generateList_entry_hash E inp.now _ _ _ _ _ hg
          · rw [if_neg ha]
            intro h
            have hcc : cat' = cat := Option.some.inj h
            subst hcc
            exact generateList_entry_hash E inp.now _ _ _ _ _ hg

theorem manifest_hash_uses_single_epoch_witness :
    (build E0 inpSuccess fsEmpty).manifest = some catOne ∧
    some entryA ∈ catOne.runners ∧
    entryA.hash = E0.sha256hex (E0.stringify entryA.info ++ natToDecimal inpSuccess.now) :=
  ⟨rfl, by decide,
   manifest_hash_uses_single_epoch E0 inpSuccess fsEmpty catOne rfl entryA (by decide)⟩

/-- C4, amended. Of the two optional post-steps, only HTML generation is
soft: its failure is caught, logged, and the run still exits zero; a failure
of the asset copy escapes to the top-level catch and fails the whole build
with a non-zero exit. -/
theorem html_soft_asset_copy_fatal (E : Externals) (inp : BuildInput) (fs0 : FSState)
    (cfg : TsConfig) (cat : Catalog) (copies : List String)
    (h1 : inp.tsconfig = some cfg) (h2 : inp.bundleOk = true) (h3 : inp.noList = false)
    (h4 : generateList E inp.now (artsOf E inp cfg) inp.pkgExists inp.pkgListName
      = .ok (cat, copies)) :
    ((inp.assetsExist = false ∨ inp.assetCopyOk = true) →
      ((build E inp fs0).exitCode = 0 ∧
        (inp.htmlOk = false → (build E inp fs0).log = ["Failed to prepare HTML"]))) ∧
    (inp.assetsExist = true → inp.assetCopyOk = false →
      (build E inp fs0).exitCode = -1) := by
  simp only [artsOf] at h4
  simp only [build, findSourceEntryPoints, h1]
  rw [if_neg (show ¬(inp.bundleOk = false) by rw [h2]; simp),
    if_neg (show ¬(inp.noList = true) by rw [h3]; simp)]
  rw [h4]
  dsimp only
  constructor
  · intro hor
    rcases hor with hae | hco
    · rw [if_neg (show ¬(inp.assetsExist = true) by rw [hae]; simp)]
      exact ⟨rfl, fun hh => by rw [hh]; rfl⟩
    · by_cases hae : inp.assetsExist = true
      · rw [if_pos hae, if_pos hco]
        exact ⟨rfl, fun hh => by rw [hh]; rfl⟩
      · rw [if_neg hae]
        exact ⟨rfl, fun hh => by rw [hh]; rfl⟩
  · intro hae hco
    rw [if_pos hae, if_neg (show ¬(inp.assetCopyOk = true) by rw [hco]; simp)]

theorem html_soft_asset_copy_fatal_witness :
    (build E0 inpHtmlFail fsEmpty).exitCode = 0 ∧
    (build E0 inpHtmlFail fsEmpty).log = ["Failed to prepare HTML"] ∧
    (build E0 inpAssetFail fsEmpty).exitCode = -1 := by
  have h1 := html_soft_asset_copy_fatal E0 inpHtmlFail fsEmpty cfgOne catOne
    ["A.stt"] rfl rfl rfl rfl
  have h2 := html_soft_asset_copy_fatal E0 inpAssetFail fsEmpty cfgOne catOne
    ["A.stt"] rfl rfl rfl rfl
  exact ⟨(h1.1 (Or.inr rfl)).1, (h1.1 (Or.inr rfl)).2 rfl, h2.2 rfl rfl⟩

/-- C4, counterexample to the claim as stated: a run identical to a fully
successful one except that the asset copy throws exits with a non-zero code,
so an asset-copy failure does fail the overall build (flipping only
`assetCopyOk` flips the exit code). -/
theorem asset_copy_failure_fails_build_cex :
    (build E0 inpAssetFail fsEmpty).exitCode = -1 ∧
    (build E0 inpSuccess fsEmpty).exitCode = 0 :=
  ⟨rfl, rfl⟩

/-- C2. A single artifact whose load throws rejects the whole
`Promise.all` batch: `generateList` returns that error instead of excluding
the entry, and at build level the run with one good and one bad artifact
produces no manifest and exits non-zero — the unawaited `fs.stat` guard
never skips anything (see `promiseTruthy`). -/
theorem generateList_single_load_failure_aborts_batch :
    generateList E0 0 [artGood, artBad] true none = .error "bad.js" ∧
    (build E0 inpOneBadLoad fsEmpty).manifest = none ∧
    (build E0 inpOneBadLoad fsEmpty).exitCode = -1 :=
  ⟨rfl, rfl, rfl⟩

/-- C7, counterexample to the claim as stated: an artifact whose metadata
lacks `name` does not fail with a hard error — `generateList` succeeds,
emits a catalog entry whose `path` is the absent name, and copies the
artifact to `undefined.stt` (the JavaScript string coercion of
`undefined`). -/
theorem nameless_artifact_still_emitted_cex :
    generateList E0 5 [artNameless] true none =
      .ok ({ runners := [some { info := infoNameless, path := none
                              , environment := "env", hash := "undefined5" }]
           , listName := "Runner List" }, ["undefined.stt"]) :=
  rfl

/-- C7, amended. No name-presence check is performed: a loadable artifact
whose metadata lacks `name` still yields a catalog entry — with `path`
the absent name — and its file is still copied, to the destination obtained
by coercing the undefined value, `undefined.stt`. -/
theorem nameless_artifact_entry_shape (E : Externals) (ts : Nat) (a : Artifact)
    (info : TargetInfo) (hl : a.loadResult = some info) (hn : info.name = none) :
    processArtifact E ts a =
      .ok (some ({ info := info, path := none, environment := E.evalEnv info
                 , hash := entryHash E ts info }, "undefined.stt")) := by
  simp only [processArtifact, hl, hn]
  rfl

theorem nameless_artifact_entry_shape_witness :
    artNameless.loadResult = some infoNameless ∧ infoNameless.name = none ∧
    processArtifact E0 5 artNameless =
      .ok (some ({ info := infoNameless, path := none
                 , environment := E0.evalEnv infoNameless
                 , hash := entryHash E0 5 infoNameless }, "undefined.stt")) :=
  ⟨rfl, rfl, nameless_artifact_entry_shape E0 5 artNameless infoNameless rfl rfl⟩
